import Mathlib

/-!
Verification development for the `chunlab` repository.

Part 1 models `opt_test2.py` (`run_batch_optimizations`): a batch loop over
matched structure files that relaxes each one with an external optimizer,
records one energy entry or one failure entry per file basename, and writes
JSON/CSV summaries plus an optional failure log.

Part 2 models `slabmaker.py` (`SlabMaker`): an interactive slab builder whose
geometry routines (`slab_z_fitter`, `trim_z`, `adjust_xy_by_surface_atoms`,
`save_poscar`, `view`, `repeat_xy`) wrap calls to external ASE routines.
External library calls (`ase.io.read`, `surface`, `Atoms.repeat`, the ML
optimizer, file writes) are modelled as oracle parameters; all arithmetic and
control flow of the repository's own code is embedded directly.
-/

/-! ## Part 1: batch optimizer (`opt_test2.py`) -/

/-- A Python `dict` keyed by string, in insertion order. -/
abbrev Dict (α : Type) : Type := List (String × α)

/-- The keys of a dict, in order. -/
def dkeys {α : Type} (d : Dict α) : List String := d.map Prod.fst

/-- Lookup in a dict (Python `d[k]` / `k in d`). -/
def dlookup {α : Type} (k : String) : Dict α → Option α
  | [] => none
  | (k2, v) :: rest => if k2 = k then some v else dlookup k rest

/-- Python `d[k] = v`: overwrite in place if the key exists, else append. -/
def dinsert {α : Type} (k : String) (v : α) (d : Dict α) : Dict α :=
  if k ∈ dkeys d then
    d.map (fun p => if p.1 = k then (k, v) else p)
  else
    d ++ [(k, v)]

/-- Outcomes of the external calls made for one input file inside the
`try` block of `run_batch_optimizations` (src/opt_test2.py lines 56-75):
`readAtoms` covers `read(path)`, `set_calculator` and the `BFGS` constructor;
`optRun` is `opt.run(...)`; `getEnergy` is `atoms.get_potential_energy()`
(energy as an exact rational); `writeVasp` is `write(out_vasp, ...)`. -/
structure FileCalls where
  readAtoms : Except String Unit
  optRun : Except String Unit
  getEnergy : Except String ℚ
  writeVasp : Except String Unit

/-- The two result tables of the batch loop (src/opt_test2.py lines 46-47). -/
structure BatchState where
  energies : Dict ℚ
  failures : Dict String
deriving DecidableEq

/-- One iteration of the `for path in files` loop (src/opt_test2.py lines
49-79): run the try block, recording the energy as soon as it is computed
(line 69, before the save on line 73); any exception lands in
`failures[base]` (line 78). -/
def processFile (fc : FileCalls) (base : String) (st : BatchState) : BatchState :=
  match fc.readAtoms with
  | .error m => { st with failures := dinsert base m st.failures }
  | .ok _ =>
    match fc.optRun with
    | .error m => { st with failures := dinsert base m st.failures }
    | .ok _ =>
      match fc.getEnergy with
      | .error m => { st with failures := dinsert base m st.failures }
      | .ok e =>
        let energies2 := dinsert base e st.energies
        match fc.writeVasp with
        | .error m => { energies := energies2, failures := dinsert base m st.failures }
        | .ok _ => { st with energies := energies2 }

/-- The whole batch loop, over the basenames of the matched files.  The
environment gives, per basename, the outcomes of that file's external calls. -/
def runLoop (env : String → FileCalls) (bases : List String) : BatchState :=
  bases.foldl (fun st b => processFile (env b) b st) { energies := [], failures := [] }

/-- Message raised at src/opt_test2.py line 42 when the glob matches nothing
(missing directory or no matching files). -/
def fileNotFoundMsg : String := "FileNotFoundError: no files found"

/-- Insertion of a string into a sorted list (models Python `sorted`,
src/opt_test2.py line 89). -/
def insortStr (x : String) : List String → List String
  | [] => [x]
  | y :: ys => if x < y then x :: y :: ys else y :: insortStr x ys

/-- Ascending sort of a list of strings. -/
def sortStr : List String → List String
  | [] => []
  | x :: xs => insortStr x (sortStr xs)

/-- The files written after the loop (src/opt_test2.py lines 81-96):
`energies.json` and `energies.csv` unconditionally, `failures.json` only
when at least one file failed. -/
structure BatchOutputs where
  written : List String
  energiesJson : Dict ℚ
  energiesCsv : List (String × ℚ)
  failuresJson : Option (Dict String)
deriving DecidableEq

/-- `run_batch_optimizations` (src/opt_test2.py lines 17-104), after path
normalisation: `bases` is the sorted list of basenames matched by the glob
(all within one directory, hence pairwise distinct paths give these names);
an empty match raises `FileNotFoundError` (line 42); otherwise the loop runs
and the summary files are written. -/
def run_batch_optimizations (env : String → FileCalls) (bases : List String) :
    Except String (BatchState × BatchOutputs) :=
  if bases = [] then .error fileNotFoundMsg
  else
    let st := runLoop env bases
    let csvRows := (sortStr (dkeys st.energies)).filterMap
      (fun k => (dlookup k st.energies).map (fun e => (k, e)))
    .ok (st,
      { written := ["energies.json", "energies.csv"] ++
          (if st.failures = [] then [] else ["failures.json"])
        energiesJson := st.energies
        energiesCsv := csvRows
        failuresJson := if st.failures = [] then none else some st.failures })

/-- `true` on `Except.ok`: the call returned normally rather than raising. -/
def isOkE {ε α : Type} : Except ε α → Bool
  | .ok _ => true
  | .error _ => false

/-- The energy recorded for a file, if its run reaches line 69 of
src/opt_test2.py (read, optimize and energy evaluation all succeed). -/
def energyOf (fc : FileCalls) : Option ℚ :=
  match fc.readAtoms, fc.optRun, fc.getEnergy with
  | .ok _, .ok _, .ok e => some e
  | _, _, _ => none

/-- The message of the first exception raised inside the try block, if any. -/
def errMsgOf (fc : FileCalls) : Option String :=
  match fc.readAtoms with
  | .error m => some m
  | .ok _ =>
    match fc.optRun with
    | .error m => some m
    | .ok _ =>
      match fc.getEnergy with
      | .error m => some m
      | .ok _ =>
        match fc.writeVasp with
        | .error m => some m
        | .ok _ => none

lemma processFile_eq (fc : FileCalls) (base : String) (st : BatchState) :
    processFile fc base st =
      { energies := match energyOf fc with
          | some e => dinsert base e st.energies
          | none => st.energies
        failures := match errMsgOf fc with
          | some m => dinsert base m st.failures
          | none => st.failures } := by
  rcases fc with ⟨r, o, g, w⟩
  rcases r with m | u <;> rcases o with m2 | u2 <;> rcases g with m3 | e <;>
    rcases w with m4 | u4 <;> rfl

lemma dkeys_append {α : Type} (d1 d2 : Dict α) :
    dkeys (d1 ++ d2) = dkeys d1 ++ dkeys d2 :=
  List.map_append _ _ _

lemma dinsert_not_mem {α : Type} (k : String) (v : α) (d : Dict α)
    (h : k ∉ dkeys d) : dinsert k v d = d ++ [(k, v)] := by
  unfold dinsert
  exact if_neg h

lemma runLoop_from (env : String → FileCalls) :
    ∀ (bases : List String) (st : BatchState), bases.Nodup →
    (∀ b, b ∈ bases → b ∉ dkeys st.energies) →
    (∀ b, b ∈ bases → b ∉ dkeys st.failures) →
    bases.foldl (fun s2 b => processFile (env b) b s2) st =
      { energies := st.energies ++
          bases.filterMap (fun b => (energyOf (env b)).map (fun e => (b, e)))
        failures := st.failures ++
          bases.filterMap (fun b => (errMsgOf (env b)).map (fun m => (b, m))) } := by
  intro bases
  induction bases with
  | nil =>
    intro st _ _ _
    rcases st with ⟨E, F⟩
    simp
  | cons b rest ih =>
    intro st hnd hE hF
    rcases List.nodup_cons.mp hnd with ⟨hb, hndrest⟩
    have hbE : b ∉ dkeys st.energies := hE b (List.mem_cons_self b rest)
    have hbF : b ∉ dkeys st.failures := hF b (List.mem_cons_self b rest)
    rw [List.foldl_cons, processFile_eq]
    rcases hge : energyOf (env b) with _ | e <;> rcases hgf : errMsgOf (env b) with _ | m
    · rw [ih st hndrest (fun b2 h2 => hE b2 (List.mem_cons_of_mem b h2))
        (fun b2 h2 => hF b2 (List.mem_cons_of_mem b h2))]
      simp [hge, hgf]
    · show List.foldl (fun s2 b => processFile (env b) b s2)
        { energies := st.energies, failures := dinsert b m st.failures } rest = _
      rw [dinsert_not_mem b m st.failures hbF]
      rw [ih { energies := st.energies, failures := st.failures ++ [(b, m)] } hndrest
        (fun b2 h2 => hE b2 (List.mem_cons_of_mem b h2))
        (fun b2 h2 => by
          rw [dkeys_append]
          intro hmem
          rcases List.mem_append.mp hmem with hc | hc
          · exact hF b2 (List.mem_cons_of_mem b h2) hc
          · simp [dkeys] at hc
            exact hb (hc ▸ h2))]
      simp [hge, hgf]
    · show List.foldl (fun s2 b => processFile (env b) b s2)
        { energies := dinsert b e st.energies, failures := st.failures } rest = _
      rw [dinsert_not_mem b e st.energies hbE]
      rw [ih { energies := st.energies ++ [(b, e)], failures := st.failures } hndrest
        (fun b2 h2 => by
          rw [dkeys_append]
          intro hmem
          rcases List.mem_append.mp hmem with hc | hc
          · exact hE b2 (List.mem_cons_of_mem b h2) hc
          · simp [dkeys] at hc
            exact hb (hc ▸ h2))
        (fun b2 h2 => hF b2 (List.mem_cons_of_mem b h2))]
      simp [hge, hgf]
    · show List.foldl (fun s2 b => processFile (env b) b s2)
        { energies := dinsert b e st.energies, failures := dinsert b m st.failures } rest = _
      rw [dinsert_not_mem b e st.energies hbE, dinsert_not_mem b m st.failures hbF]
      rw [ih { energies := st.energies ++ [(b, e)], failures := st.failures ++ [(b, m)] }
        hndrest
        (fun b2 h2 => by
          rw [dkeys_append]
          intro hmem
          rcases List.mem_append.mp hmem with hc | hc
          · exact hE b2 (List.mem_cons_of_mem b h2) hc
          · simp [dkeys] at hc
            exact hb (hc ▸ h2))
        (fun b2 h2 => by
          rw [dkeys_append]
          intro hmem
          rcases List.mem_append.mp hmem with hc | hc
          · exact hF b2 (List.mem_cons_of_mem b h2) hc
          · simp [dkeys] at hc
            exact hb (hc ▸ h2))]
      simp [hge, hgf]

lemma runLoop_energies (env : String → FileCalls) (bases : List String)
    (hnd : bases.Nodup) :
    (runLoop env bases).energies =
      bases.filterMap (fun b => (energyOf (env b)).map (fun e => (b, e))) := by
  unfold runLoop
  rw [runLoop_from env bases { energies := [], failures := [] } hnd
    (by intro b _ h; simp [dkeys] at h) (by intro b _ h; simp [dkeys] at h)]
  simp [Dict]

lemma runLoop_failures (env : String → FileCalls) (bases : List String)
    (hnd : bases.Nodup) :
    (runLoop env bases).failures =
      bases.filterMap (fun b => (errMsgOf (env b)).map (fun m => (b, m))) := by
  unfold runLoop
  rw [runLoop_from env bases { energies := [], failures := [] } hnd
    (by intro b _ h; simp [dkeys] at h) (by intro b _ h; simp [dkeys] at h)]
  simp [Dict]

lemma dlookup_filterMap {α : Type} (o : String → Option α) (bases : List String)
    (hnd : bases.Nodup) (b : String) :
    dlookup b (bases.filterMap (fun x => (o x).map (fun v => (x, v)))) =
      if b ∈ bases then o b else none := by
  induction bases with
  | nil => simp [dlookup, Dict, List.filterMap]
  | cons x rest ih =>
    rcases List.nodup_cons.mp hnd with ⟨hx, hndrest⟩
    rcases hox : o x with _ | v
    · rw [List.filterMap_cons]
      simp only [hox, Option.map_none']
      rw [ih hndrest]
      by_cases hbx : b = x
      · subst hbx
        simp [hx, hox]
      · have hmm : b ∈ x :: rest ↔ b ∈ rest := by
          constructor
          · intro h
            rcases List.mem_cons.mp h with h2 | h2
            · exact absurd h2 hbx
            · exact h2
          · exact List.mem_cons_of_mem x
        by_cases hbr : b ∈ rest
        · rw [if_pos hbr, if_pos (hmm.mpr hbr)]
        · rw [if_neg hbr, if_neg (fun h => hbr (hmm.mp h))]
    · rw [List.filterMap_cons]
      simp only [hox, Option.map_some']
      by_cases hbx : x = b
      · subst hbx
        simp [dlookup, hox]
      · show dlookup b ((x, v) :: _) = _
        rw [dlookup]
        rw [if_neg hbx, ih hndrest]
        have hmm : b ∈ x :: rest ↔ b ∈ rest := by
          simp [List.mem_cons]
          intro h
          exact absurd h.symm hbx
        by_cases hbr : b ∈ rest
        · rw [if_pos hbr, if_pos (hmm.mpr hbr)]
        · rw [if_neg hbr, if_neg (fun h => hbr (hmm.mp h))]

lemma dkeys_filterMap {α : Type} (o : String → Option α) (bases : List String) :
    dkeys (bases.filterMap (fun x => (o x).map (fun v => (x, v)))) =
      bases.filter (fun b => (o b).isSome) := by
  induction bases with
  | nil => rfl
  | cons x rest ih =>
    rw [List.filterMap_cons, List.filter_cons]
    rcases hox : o x with _ | v
    · simpa [hox] using ih
    · simp only [hox, Option.map_some', Option.isSome_some, if_pos]
      show x :: dkeys _ = _
      rw [ih]

lemma energy_and_fail_means_save_failed (fc : FileCalls)
    (he : (energyOf fc).isSome = true) (hf : (errMsgOf fc).isSome = true) :
    isOkE fc.readAtoms = true ∧ isOkE fc.optRun = true ∧
      isOkE fc.getEnergy = true ∧ isOkE fc.writeVasp = false := by
  rcases fc with ⟨r, o, g, w⟩
  rcases r with m | u <;> rcases o with m2 | u2 <;> rcases g with m3 | e <;>
    rcases w with m4 | u4 <;>
    simp_all [energyOf, errMsgOf, isOkE]

/-! ### Concrete file behaviours used in instances and counterexamples -/

/-- A file whose optimization succeeds but whose relaxed-structure save
raises: `energies[base]` is already recorded (line 69) when `write` (line 73)
throws, so the basename then also lands in `failures` (line 78). -/
def fcSaveFail : FileCalls :=
  { readAtoms := .ok (), optRun := .ok (), getEnergy := .ok (-5)
    writeVasp := .error "OSError: disk full" }

/-- A malformed structure file: `read(path)` on line 57 raises inside the
per-file try block. -/
def fcReadFail : FileCalls :=
  { readAtoms := .error "Exception: malformed structure file", optRun := .ok ()
    getEnergy := .ok 0, writeVasp := .ok () }

/-- A file whose optimizer run raises. -/
def fcOptFail : FileCalls :=
  { readAtoms := .ok (), optRun := .error "RuntimeError: forces diverged"
    getEnergy := .ok 0, writeVasp := .ok () }

/-- A file that is processed without any exception. -/
def fcAllOk : FileCalls :=
  { readAtoms := .ok (), optRun := .ok (), getEnergy := .ok (-3)
    writeVasp := .ok () }

/-- Claim C1, counterexample: with a single input file whose relaxed-structure
save fails after its energy was computed, the basename ends up with an entry
in the energies table AND an entry in the failures table, refuting "never an
entry in both". -/
theorem claim1_both_tables_cex :
    (dlookup "POSCAR_1" (runLoop (fun _ => fcSaveFail) ["POSCAR_1"]).energies).isSome = true ∧
    (dlookup "POSCAR_1" (runLoop (fun _ => fcSaveFail) ["POSCAR_1"]).failures).isSome = true := by
  decide

/-- Claim C1 (amended): each processed basename has at most one entry in the
energies table and at most one entry in the failures table (both key lists
are duplicate-free), and a basename appears in both tables only when its
read, optimization and energy evaluation all succeeded and the subsequent
save of the relaxed structure raised. -/
theorem claim1_tables_amended (env : String → FileCalls) (bases : List String)
    (hnd : bases.Nodup) :
    (dkeys (runLoop env bases).energies).Nodup ∧
    (dkeys (runLoop env bases).failures).Nodup ∧
    ∀ b, b ∈ dkeys (runLoop env bases).energies →
      b ∈ dkeys (runLoop env bases).failures →
      isOkE (env b).readAtoms = true ∧ isOkE (env b).optRun = true ∧
        isOkE (env b).getEnergy = true ∧ isOkE (env b).writeVasp = false := by
  have hE := runLoop_energies env bases hnd
  have hF := runLoop_failures env bases hnd
  refine ⟨?_, ?_, ?_⟩
  · rw [hE, dkeys_filterMap]
    exact hnd.filter _
  · rw [hF, dkeys_filterMap]
    exact hnd.filter _
  · intro b hbe hbf
    rw [hE, dkeys_filterMap] at hbe
    rw [hF, dkeys_filterMap] at hbf
    exact energy_and_fail_means_save_failed (env b)
      (List.mem_filter.mp hbe).2 (List.mem_filter.mp hbf).2

/-- Claim C1, witness: the amended statement evaluated on the concrete
save-failure batch. -/
theorem claim1_tables_amended_instance :
    (dkeys (runLoop (fun _ => fcSaveFail) ["POSCAR_1"]).energies).Nodup ∧
    (dkeys (runLoop (fun _ => fcSaveFail) ["POSCAR_1"]).failures).Nodup ∧
    isOkE fcSaveFail.getEnergy = true ∧ isOkE fcSaveFail.writeVasp = false := by
  have h := claim1_tables_amended (fun _ => fcSaveFail) ["POSCAR_1"] (by decide)
  have h2 := h.2.2 "POSCAR_1" (by decide) (by decide)
  exact ⟨h.1, h.2.1, h2.2.2.1, h2.2.2.2⟩

/-- Claim C2: any exception inside the per-file try block is caught and
recorded in `failures` under the basename, the batch itself still returns
normally, and every file is processed with its own outcome independent of
other files' failures (processing continues with the next file). -/
theorem claim2_per_file_exceptions_caught (env : String → FileCalls)
    (bases : List String) (b : String) (m : String) (hnd : bases.Nodup)
    (hb : b ∈ bases) (hm : errMsgOf (env b) = some m) :
    isOkE (run_batch_optimizations env bases) = true ∧
    dlookup b (runLoop env bases).failures = some m ∧
    ∀ b2, b2 ∈ bases → dlookup b2 (runLoop env bases).energies = energyOf (env b2) := by
  have hne : bases ≠ [] := List.ne_nil_of_mem hb
  refine ⟨?_, ?_, ?_⟩
  · unfold run_batch_optimizations
    rw [if_neg hne]
    rfl
  · rw [runLoop_failures env bases hnd,
      dlookup_filterMap (fun x => errMsgOf (env x)) bases hnd b, if_pos hb, hm]
  · intro b2 hb2
    rw [runLoop_energies env bases hnd,
      dlookup_filterMap (fun x => energyOf (env x)) bases hnd b2, if_pos hb2]

/-- Claim C2, witness: a two-file batch in which the first file's optimizer
raises; the failure is recorded and the batch still returns normally. -/
theorem claim2_per_file_exceptions_caught_instance :
    isOkE (run_batch_optimizations
      (fun b => if b = "POSCAR_A" then fcOptFail else fcAllOk)
      ["POSCAR_A", "POSCAR_B"]) = true ∧
    dlookup "POSCAR_A" (runLoop
      (fun b => if b = "POSCAR_A" then fcOptFail else fcAllOk)
      ["POSCAR_A", "POSCAR_B"]).failures = some "RuntimeError: forces diverged" := by
  have h := claim2_per_file_exceptions_caught
    (fun b => if b = "POSCAR_A" then fcOptFail else fcAllOk)
    ["POSCAR_A", "POSCAR_B"] "POSCAR_A" "RuntimeError: forces diverged"
    (by decide) (by decide) (by decide)
  exact ⟨h.1, h.2.1⟩

/-- Claim C3, counterexample: a malformed input structure file does NOT
propagate out of `run_batch_optimizations`; its `read` exception is raised
inside the per-file try block (line 57), caught (line 77), and recorded in
the failures table, and the function returns normally. -/
theorem claim3_malformed_caught_cex :
    isOkE (run_batch_optimizations (fun _ => fcReadFail) ["POSCAR_bad"]) = true ∧
    dlookup "POSCAR_bad" (runLoop (fun _ => fcReadFail) ["POSCAR_bad"]).failures =
      some "Exception: malformed structure file" := by
  decide

/-- Claim C3 (amended): errors arising before the per-file loop — in
particular a glob that matches no files (missing directory) — propagate
uncaught as `FileNotFoundError`, while exceptions raised while processing an
individual file, including a malformed input structure file failing in
`read`, are caught and recorded in the failures table instead of
propagating. -/
theorem claim3_propagation_amended (env : String → FileCalls)
    (bases : List String) (b : String) (m : String) (hnd : bases.Nodup)
    (hb : b ∈ bases) (hread : (env b).readAtoms = .error m) :
    run_batch_optimizations env [] = .error fileNotFoundMsg ∧
    isOkE (run_batch_optimizations env bases) = true ∧
    dlookup b (runLoop env bases).failures = some m := by
  refine ⟨rfl, ?_, ?_⟩
  · unfold run_batch_optimizations
    rw [if_neg (List.ne_nil_of_mem hb)]
    rfl
  · have hmsg : errMsgOf (env b) = some m := by
      unfold errMsgOf
      rw [hread]
    rw [runLoop_failures env bases hnd,
      dlookup_filterMap (fun x => errMsgOf (env x)) bases hnd b, if_pos hb, hmsg]

/-- Claim C3, witness: the amended statement on a concrete one-file batch
whose file is malformed. -/
theorem claim3_propagation_amended_instance :
    run_batch_optimizations (fun _ => fcReadFail) [] = .error fileNotFoundMsg ∧
    isOkE (run_batch_optimizations (fun _ => fcReadFail) ["POSCAR_m"]) = true ∧
    dlookup "POSCAR_m" (runLoop (fun _ => fcReadFail) ["POSCAR_m"]).failures =
      some "Exception: malformed structure file" :=
  claim3_propagation_amended (fun _ => fcReadFail) ["POSCAR_m"] "POSCAR_m"
    "Exception: malformed structure file" (by decide) (by decide) rfl

/-- Claim C4: on every non-empty batch, `energies.json` and `energies.csv`
are written unconditionally, and `failures.json` is written if and only if
at least one file failed, in which case it contains exactly the failure
entries keyed by basename. -/
theorem claim4_failure_log_iff (env : String → FileCalls) (bases : List String)
    (hne : bases ≠ []) :
    ∀ st outs, run_batch_optimizations env bases = .ok (st, outs) →
      "energies.json" ∈ outs.written ∧ "energies.csv" ∈ outs.written ∧
      (("failures.json" ∈ outs.written) ↔ st.failures ≠ []) ∧
      ((st.failures = [] ∧ outs.failuresJson = none) ∨
        (st.failures ≠ [] ∧ outs.failuresJson = some st.failures)) := by
  intro st outs h
  unfold run_batch_optimizations at h
  rw [if_neg hne] at h
  simp only [Except.ok.injEq, Prod.mk.injEq] at h
  obtain ⟨hst, houts⟩ := h
  subst hst
  subst houts
  by_cases hfl : (runLoop env bases).failures = []
  · simp [hfl]
  · simp [hfl]

/-- Claim C4, witness: the statement evaluated on a concrete one-file batch
whose save step fails, so `failures.json` is among the written files and
holds exactly the failure table. -/
theorem claim4_failure_log_iff_instance :
    "energies.json" ∈ (["energies.json", "energies.csv", "failures.json"] : List String) ∧
    "energies.csv" ∈ (["energies.json", "energies.csv", "failures.json"] : List String) ∧
    (("failures.json" ∈ (["energies.json", "energies.csv", "failures.json"] : List String)) ↔
      ([("POSCAR_1", "OSError: disk full")] : Dict String) ≠ []) ∧
    ((([("POSCAR_1", "OSError: disk full")] : Dict String) = [] ∧
        (some [("POSCAR_1", "OSError: disk full")] : Option (Dict String)) = none) ∨
      (([("POSCAR_1", "OSError: disk full")] : Dict String) ≠ [] ∧
        (some [("POSCAR_1", "OSError: disk full")] : Option (Dict String)) =
          some [("POSCAR_1", "OSError: disk full")])) := by
  have h := claim4_failure_log_iff (fun _ => fcSaveFail) ["POSCAR_1"] (by decide)
    { energies := [("POSCAR_1", -5)], failures := [("POSCAR_1", "OSError: disk full")] }
    { written := ["energies.json", "energies.csv", "failures.json"]
      energiesJson := [("POSCAR_1", -5)]
      energiesCsv := [("POSCAR_1", -5)]
      failuresJson := some [("POSCAR_1", "OSError: disk full")] }
    rfl
  exact h

/-! ## Part 2: slab builder (`slabmaker.py`)

Atom positions are exact rationals; `numpy` float arithmetic on the small
integer-derived quantities involved is modelled by exact real (rational)
arithmetic.  The external ASE calls (`io.read`, `Atoms.repeat`, `surface`,
`io.write`, `view`) are oracle parameters of the embedding. -/

/-- One atom's Cartesian position (a row of `get_positions()`). -/
structure Atom where
  x : ℚ
  y : ℚ
  z : ℚ
deriving DecidableEq

/-- A slab: the list of its atoms, as ASE exposes them to this code. -/
structure Slab where
  atoms : List Atom
deriving DecidableEq

/-- `numpy` `.max()` of a list of rationals.  On `[]` numpy raises; the `0`
default is never relied upon by any theorem below. -/
def qMax : List ℚ → ℚ
  | [] => 0
  | v :: vs => vs.foldl max v

/-- `numpy` `.min()` of a list of rationals (same convention as `qMax`). -/
def qMin : List ℚ → ℚ
  | [] => 0
  | v :: vs => vs.foldl min v

lemma foldl_max_mem (xs : List ℚ) :
    ∀ acc : ℚ, xs.foldl max acc = acc ∨ xs.foldl max acc ∈ xs := by
  induction xs with
  | nil =>
    intro acc
    left
    rfl
  | cons v vs ih =>
    intro acc
    rw [List.foldl_cons]
    rcases ih (max acc v) with h | h
    · rcases max_choice acc v with h2 | h2
      · left
        rw [h, h2]
      · right
        rw [h, h2]
        exact List.mem_cons_self v vs
    · right
      exact List.mem_cons_of_mem v h

lemma qMax_mem (l : List ℚ) (h : l ≠ []) : qMax l ∈ l := by
  match l with
  | [] => exact absurd rfl h
  | v :: vs =>
    show vs.foldl max v ∈ v :: vs
    rcases foldl_max_mem vs v with h2 | h2
    · rw [h2]
      exact List.mem_cons_self v vs
    · exact List.mem_cons_of_mem v h2

lemma foldl_max_add (c : ℚ) (xs : List ℚ) :
    ∀ acc : ℚ, (xs.map (fun t => t + c)).foldl max (acc + c) = xs.foldl max acc + c := by
  induction xs with
  | nil =>
    intro acc
    rfl
  | cons v vs ih =>
    intro acc
    rw [List.map_cons, List.foldl_cons, List.foldl_cons, max_add_add_right]
    exact ih (max acc v)

lemma foldl_min_add (c : ℚ) (xs : List ℚ) :
    ∀ acc : ℚ, (xs.map (fun t => t + c)).foldl min (acc + c) = xs.foldl min acc + c := by
  induction xs with
  | nil =>
    intro acc
    rfl
  | cons v vs ih =>
    intro acc
    rw [List.map_cons, List.foldl_cons, List.foldl_cons, min_add_add_right]
    exact ih (min acc v)

lemma qMax_map_add (c : ℚ) (l : List ℚ) (h : l ≠ []) :
    qMax (l.map (fun t => t + c)) = qMax l + c := by
  match l with
  | [] => exact absurd rfl h
  | v :: vs =>
    show (vs.map (fun t => t + c)).foldl max (v + c) = vs.foldl max v + c
    exact foldl_max_add c vs v

lemma qMin_map_add (c : ℚ) (l : List ℚ) (h : l ≠ []) :
    qMin (l.map (fun t => t + c)) = qMin l + c := by
  match l with
  | [] => exact absurd rfl h
  | v :: vs =>
    show (vs.map (fun t => t + c)).foldl min (v + c) = vs.foldl min v + c
    exact foldl_min_add c vs v

/-- The z coordinates of a slab's atoms (`get_positions()[:, 2]`). -/
def zcoords (s : Slab) : List ℚ := s.atoms.map Atom.z

/-- `z.max() - z.min()`: the slab thickness used throughout `slab_z_fitter`
(src/slabmaker.py lines 37-38). -/
def thicknessOf (s : Slab) : ℚ := qMax (zcoords s) - qMin (zcoords s)

/-- `slab.center(vacuum=vac, axis=2)` (src/slabmaker.py line 53): ASE
translates the structure along z so the slab sits `vac` above the cell
bottom; on positions this is the uniform shift `z - z.min() + vac`. -/
def centerZ (s : Slab) (vac : ℚ) : Slab :=
  { atoms := s.atoms.map (fun a => { a with z := a.z - qMin (zcoords s) + vac }) }

lemma zcoords_centerZ (s : Slab) (vac : ℚ) :
    zcoords (centerZ s vac) = (zcoords s).map (fun t => t + (vac - qMin (zcoords s))) := by
  unfold zcoords centerZ
  rw [List.map_map, List.map_map]
  congr 1
  funext a
  show a.z - qMin (List.map Atom.z s.atoms) + vac = a.z + (vac - qMin (List.map Atom.z s.atoms))
  ring

/-- Centering is a rigid z-translation: it preserves the slab thickness. -/
lemma thicknessOf_centerZ (s : Slab) (vac : ℚ) :
    thicknessOf (centerZ s vac) = thicknessOf s := by
  by_cases h : s.atoms = []
  · unfold thicknessOf centerZ zcoords
    rw [h]
    rfl
  · have hz : zcoords s ≠ [] := by
      unfold zcoords
      simpa using h
    unfold thicknessOf
    rw [zcoords_centerZ, qMax_map_add _ _ hz, qMin_map_add _ _ hz]
    ring

/-- The least natural number whose square is at least `m`: the exact value of
`ceil(sqrt(m))`. -/
def natCeilSqrt (m : ℕ) : ℕ :=
  if Nat.sqrt m * Nat.sqrt m = m then Nat.sqrt m else Nat.sqrt m + 1

lemma natCeilSqrt_le_sq (m : ℕ) : m ≤ natCeilSqrt m * natCeilSqrt m := by
  unfold natCeilSqrt
  split
  · rename_i h
    exact h.symm.le
  · exact le_of_lt (Nat.lt_succ_sqrt m)

lemma natCeilSqrt_min (m k : ℕ) (h : m ≤ k * k) : natCeilSqrt m ≤ k := by
  unfold natCeilSqrt
  split
  · have h2 : Nat.sqrt m ≤ Nat.sqrt (k * k) := Nat.sqrt_le_sqrt h
    rwa [Nat.sqrt_eq] at h2
  · rename_i hne
    by_contra hk
    have hk2 : k ≤ Nat.sqrt m := Nat.lt_succ_iff.mp (Nat.lt_of_not_le hk)
    have h1 : k * k ≤ Nat.sqrt m * Nat.sqrt m := Nat.mul_le_mul hk2 hk2
    have h2 : Nat.sqrt m * Nat.sqrt m ≤ m := Nat.sqrt_le m
    have h3 : m = k * k := le_antisymm h (h1.trans h2)
    apply hne
    rw [h3, Nat.sqrt_eq]

/-- `int(np.ceil(np.sqrt(q)))` for a nonnegative rational `q`
(src/slabmaker.py line 116), via the exact integer characterisation
`ceil(sqrt(q)) = least k with q ≤ k^2`. -/
def ceilSqrtRat (q : ℚ) : ℕ := natCeilSqrt (Int.toNat ⌈q⌉)

lemma ceilSqrtRat_ge (q : ℚ) : q ≤ (ceilSqrtRat q : ℚ) ^ 2 := by
  have h1 : q ≤ ((Int.toNat ⌈q⌉ : ℤ) : ℚ) := by
    calc q ≤ ((⌈q⌉ : ℤ) : ℚ) := Int.le_ceil q
    _ ≤ ((Int.toNat ⌈q⌉ : ℤ) : ℚ) := by exact_mod_cast Int.self_le_toNat ⌈q⌉
  have h4 := natCeilSqrt_le_sq (Int.toNat ⌈q⌉)
  calc q ≤ ((Int.toNat ⌈q⌉ : ℤ) : ℚ) := h1
  _ ≤ ((natCeilSqrt (Int.toNat ⌈q⌉) * natCeilSqrt (Int.toNat ⌈q⌉) : ℕ) : ℚ) := by
    push_cast
    exact_mod_cast h4
  _ = (ceilSqrtRat q : ℚ) ^ 2 := by
    unfold ceilSqrtRat
    push_cast
    ring

lemma ceilSqrtRat_min (q : ℚ) (k : ℕ) (h : q ≤ (k : ℚ) ^ 2) : ceilSqrtRat q ≤ k := by
  apply natCeilSqrt_min
  apply Int.toNat_le.mpr
  apply Int.ceil_le.mpr
  push_cast
  calc q ≤ (k : ℚ) ^ 2 := h
  _ = (k : ℚ) * (k : ℚ) := by ring

/-- Opaque handle for an external ASE `Atoms` object (bulk structure). -/
abbrev Bulk : Type := ℕ

/-- Oracles for the external ASE routines used by `SlabMaker`:
`readF` is `ase.io.read` (line 30), `repeatB` is `Atoms.repeat` on the bulk
with the three supercell repeats (line 31), `surfaceF` is
`ase.build.general_surface.surface` (lines 34, 47), and `repeatSlab` is
`Atoms.repeat((nx, ny, 1))` on a built slab (line 215). -/
structure SlabEnv where
  readF : String → Bulk
  repeatB : Bulk → ℤ → ℤ → ℤ → Bulk
  surfaceF : Bulk → ℤ × ℤ × ℤ → ℤ → Slab
  repeatSlab : Slab → ℤ → ℤ → Slab

/-- The mutable fields of a `SlabMaker` instance (src/slabmaker.py lines
16-27).  `super_xyz` is the three-element list, split into its components. -/
structure SlabMakerState where
  poscarFile : String
  miller : ℤ × ℤ × ℤ
  layers : ℤ
  superX : ℤ
  superY : ℤ
  superZ : ℤ
  vacuum : ℚ
  targetThickness : ℚ × ℚ
  maxLayers : ℤ
  slab : Option Slab
deriving DecidableEq

/-- The `ValueError` message raised by every slab-consuming method when
`self.slab is None` (src/slabmaker.py lines 67, 99, 187, 195, 209). -/
def noSlabMsg : String := "ValueError: slab has not been created yet"

/-- The `RuntimeError` message raised when the layer count would exceed
`max_layers` (src/slabmaker.py line 45). -/
def maxLayersMsg : String := "RuntimeError: maximum layer count exceeded"

/-- The `ValueError` message of `repeat_xy` for nonpositive repeats
(src/slabmaker.py line 212). -/
def badRepeatMsg : String := "ValueError: nx and ny must be positive integers"

namespace SlabMaker

/-- `io.read(self.poscar_file).repeat(self.super_xyz)` (src/slabmaker.py
lines 30-31): the supercell handed to `surface`. -/
def supercellOf (env : SlabEnv) (sm : SlabMakerState) : Bulk :=
  env.repeatB (env.readF sm.poscarFile) sm.superX sm.superY sm.superZ

/-- The `while thickness < self.target_thickness[0]` loop of `slab_z_fitter`
(src/slabmaker.py lines 41-49), unrolled on explicit fuel.  The caller passes
`fuel = (max_layers - layers).toNat`, so `fuel = 0` holds exactly when the
incremented count would satisfy `layers + 1 > max_layers`, the raise
condition of line 44; otherwise the loop rebuilds the slab with one more
layer and re-measures the thickness. -/
def fitLoopAux (env : SlabEnv) (supercell : Bulk) (mil : ℤ × ℤ × ℤ) (t0 : ℚ) :
    ℕ → ℤ → Slab → Except String (Slab × ℤ)
  | 0, layers, slab =>
    if thicknessOf slab < t0 then .error maxLayersMsg else .ok (slab, layers)
  | fuel + 1, layers, slab =>
    if thicknessOf slab < t0 then
      fitLoopAux env supercell mil t0 fuel (layers + 1)
        (env.surfaceF supercell mil (layers + 1))
    else .ok (slab, layers)

/-- `SlabMaker.slab_z_fitter` (src/slabmaker.py lines 29-56): read the bulk,
build the supercell, grow the layer count until the slab is at least
`target_thickness[0]` thick (or raise `RuntimeError`), then center with the
vacuum and store the slab and the final layer count on the instance.  The
first component is the instance state after the call (unchanged when the
call raises, since both assignments on lines 54-55 come after all raise
points). -/
def slab_z_fitter (env : SlabEnv) (sm : SlabMakerState) :
    SlabMakerState × Except String Slab :=
  match fitLoopAux env (supercellOf env sm) sm.miller sm.targetThickness.1
      (sm.maxLayers - sm.layers).toNat sm.layers
      (env.surfaceF (supercellOf env sm) sm.miller sm.layers) with
  | .error e => (sm, .error e)
  | .ok (slab1, layers1) =>
    ({ sm with slab := some (centerZ slab1 sm.vacuum), layers := layers1 },
      .ok (centerZ slab1 sm.vacuum))

/-- The atoms kept by `trim_z` (src/slabmaker.py lines 72-78): the complement
`~delete_mask` of the mask `(z_max - z_values) > cutoff`. -/
def trimKept (cutoff : ℚ) (s : Slab) : List Atom :=
  s.atoms.filter (fun a => ! decide (qMax (zcoords s) - a.z > cutoff))

/-- `SlabMaker.trim_z` (src/slabmaker.py lines 59-83): drop every atom with
`z_max - z > cutoff` (`delete_mask`), keep the complement (`~delete_mask`). -/
def trim_z (cutoff : ℚ) (sm : SlabMakerState) : SlabMakerState × Except String Slab :=
  match sm.slab with
  | none => (sm, .error noSlabMsg)
  | some s =>
    ({ sm with slab := some { atoms := trimKept cutoff s } },
      .ok { atoms := trimKept cutoff s })

/-- The `keep_xy` mask of the shrink branch of `adjust_xy_by_surface_atoms`
(src/slabmaker.py lines 138-166): the atom lies in the centered box whose
widths are the bounding-box widths scaled by `sqrt(target/n_surface)`.
`x_center - width*sqrt(r)/2 <= x <= x_center + width*sqrt(r)/2` is encoded
exactly, by squaring, as `(2x - (x_max + x_min))^2 <= (x_max - x_min)^2 * r`
(both squarings are of nonnegative quantities when `r >= 0`). -/
def shrinkKeep (target nSurface : ℤ) (s : Slab) (a : Atom) : Bool :=
  let xs := s.atoms.map Atom.x
  let ys := s.atoms.map Atom.y
  let r : ℚ := (target : ℚ) / (nSurface : ℚ)
  decide ((2 * a.x - (qMax xs + qMin xs)) ^ 2 ≤ (qMax xs - qMin xs) ^ 2 * r) &&
    decide ((2 * a.y - (qMax ys + qMin ys)) ^ 2 ≤ (qMax ys - qMin ys) ^ 2 * r)

/-- The repeat scale factor of the grow branch (src/slabmaker.py lines
112-116): `2` for a nonpositive count, else `int(np.ceil(np.sqrt(target /
n_surface)))`. -/
def growScale (nSurface target : ℤ) : ℤ :=
  if nSurface ≤ 0 then 2
  else (ceilSqrtRat ((target : ℚ) / (nSurface : ℚ)) : ℤ)

/-- `new_nx = min(self.super_xyz[0] * scale, max_xy_repeat)` (line 118). -/
def growNx (nSurface target maxXYRepeat : ℤ) (sm : SlabMakerState) : ℤ :=
  min (sm.superX * growScale nSurface target) maxXYRepeat

/-- `new_ny = min(self.super_xyz[1] * scale, max_xy_repeat)` (line 119). -/
def growNy (nSurface target maxXYRepeat : ℤ) (sm : SlabMakerState) : ℤ :=
  min (sm.superY * growScale nSurface target) maxXYRepeat

/-- `atoms[keep_xy]` of the shrink branch (line 174). -/
def shrinkAtoms (target nSurface : ℤ) (s : Slab) : List Atom :=
  s.atoms.filter (shrinkKeep target nSurface s)

/-- `SlabMaker.adjust_xy_by_surface_atoms` (src/slabmaker.py lines 85-178):
equal counts change nothing; too few surface atoms multiply the x,y supercell
repeats by `int(ceil(sqrt(target/n_surface)))` (2 if `n_surface <= 0`),
capped at `max_xy_repeat`, and rebuild the slab via `slab_z_fitter`; too many
surface atoms keep only the atoms inside the shrunken centered box, unless
that would delete everything. -/
def adjust_xy_by_surface_atoms (env : SlabEnv) (nSurface target maxXYRepeat : ℤ)
    (sm : SlabMakerState) : SlabMakerState × Except String Slab :=
  match sm.slab with
  | none => (sm, .error noSlabMsg)
  | some s =>
    if nSurface = target then (sm, .ok s)
    else if nSurface < target then
      if growNx nSurface target maxXYRepeat sm = sm.superX ∧
          growNy nSurface target maxXYRepeat sm = sm.superY then (sm, .ok s)
      else
        slab_z_fitter env
          { sm with superX := growNx nSurface target maxXYRepeat sm
                    superY := growNy nSurface target maxXYRepeat sm }
    else
      if (shrinkAtoms target nSurface s).length = 0 then (sm, .ok s)
      else
        ({ sm with slab := some { atoms := shrinkAtoms target nSurface s } },
          .ok { atoms := shrinkAtoms target nSurface s })

/-- `SlabMaker.save_poscar` (src/slabmaker.py lines 185-190); `writeRes` is
the outcome of the external `io.write`. -/
def save_poscar (writeRes : Except String Unit) (filename : String)
    (sm : SlabMakerState) : SlabMakerState × Except String Unit :=
  match sm.slab with
  | none => (sm, .error noSlabMsg)
  | some _ =>
    let _ := filename
    (sm, writeRes)

/-- `SlabMaker.view` (src/slabmaker.py lines 193-196). -/
def view (sm : SlabMakerState) : SlabMakerState × Except String Unit :=
  match sm.slab with
  | none => (sm, .error noSlabMsg)
  | some _ => (sm, .ok ())

/-- `SlabMaker.repeat_xy` (src/slabmaker.py lines 201-225): repeat the
existing slab in x and y and multiply the stored repeats accordingly. -/
def repeat_xy (env : SlabEnv) (nx ny : ℤ) (sm : SlabMakerState) :
    SlabMakerState × Except String Slab :=
  match sm.slab with
  | none => (sm, .error noSlabMsg)
  | some s =>
    if nx ≤ 0 ∨ ny ≤ 0 then (sm, .error badRepeatMsg)
    else
      let s2 := env.repeatSlab s nx ny
      ({ sm with slab := some s2, superX := sm.superX * nx, superY := sm.superY * ny },
        .ok s2)

end SlabMaker

namespace SlabMaker

lemma fitLoopAux_ok (env : SlabEnv) (sc : Bulk) (mil : ℤ × ℤ × ℤ) (t0 : ℚ) :
    ∀ (fuel : ℕ) (L : ℤ) (sl : Slab) (s1 : Slab) (L1 : ℤ),
      fitLoopAux env sc mil t0 fuel L sl = .ok (s1, L1) →
      t0 ≤ thicknessOf s1 ∧ L ≤ L1 ∧ L1 ≤ L + fuel := by
  intro fuel
  induction fuel with
  | zero =>
    intro L sl s1 L1 h
    unfold fitLoopAux at h
    split at h
    · exact absurd h (by simp)
    · rename_i hth
      simp only [Except.ok.injEq, Prod.mk.injEq] at h
      obtain ⟨hs, hL⟩ := h
      subst hs
      subst hL
      exact ⟨le_of_not_lt hth, le_refl L, by omega⟩
  | succ fuel ih =>
    intro L sl s1 L1 h
    unfold fitLoopAux at h
    split at h
    · have h2 := ih (L + 1) (env.surfaceF sc mil (L + 1)) s1 L1 h
      exact ⟨h2.1, by omega, by omega⟩
    · rename_i hth
      simp only [Except.ok.injEq, Prod.mk.injEq] at h
      obtain ⟨hs, hL⟩ := h
      subst hs
      subst hL
      exact ⟨le_of_not_lt hth, le_refl L, by omega⟩

lemma fitLoopAux_err (env : SlabEnv) (sc : Bulk) (mil : ℤ × ℤ × ℤ) (t0 : ℚ) :
    ∀ (fuel : ℕ) (L : ℤ) (sl : Slab) (e : String),
      fitLoopAux env sc mil t0 fuel L sl = .error e → e = maxLayersMsg := by
  intro fuel
  induction fuel with
  | zero =>
    intro L sl e h
    unfold fitLoopAux at h
    split at h
    · simp only [Except.error.injEq] at h
      exact h.symm
    · exact absurd h (by simp)
  | succ fuel ih =>
    intro L sl e h
    unfold fitLoopAux at h
    split at h
    · exact ih (L + 1) (env.surfaceF sc mil (L + 1)) e h
    · exact absurd h (by simp)

lemma slab_z_fitter_err_props (env : SlabEnv) (sm : SlabMakerState) :
    ∀ e, (slab_z_fitter env sm).2 = .error e → e = maxLayersMsg := by
  intro e h
  unfold slab_z_fitter at h
  rcases hfit : fitLoopAux env (supercellOf env sm) sm.miller sm.targetThickness.1
      (sm.maxLayers - sm.layers).toNat sm.layers
      (env.surfaceF (supercellOf env sm) sm.miller sm.layers) with e2 | p
  · rw [hfit] at h
    simp only [Except.error.injEq] at h
    rw [← h]
    exact fitLoopAux_err env _ sm.miller sm.targetThickness.1 _ sm.layers _ e2 hfit
  · rcases p with ⟨s1, L1⟩
    rw [hfit] at h
    exact absurd h (by simp)

lemma slab_z_fitter_ok_props (env : SlabEnv) (sm : SlabMakerState) :
    ∀ s, (slab_z_fitter env sm).2 = .ok s →
      sm.targetThickness.1 ≤ thicknessOf s ∧
      sm.layers ≤ (slab_z_fitter env sm).1.layers ∧
      (slab_z_fitter env sm).1.layers ≤ max sm.layers sm.maxLayers := by
  intro s
  unfold slab_z_fitter
  rcases hfit : fitLoopAux env (supercellOf env sm) sm.miller sm.targetThickness.1
      (sm.maxLayers - sm.layers).toNat sm.layers
      (env.surfaceF (supercellOf env sm) sm.miller sm.layers) with e2 | ⟨s1, L1⟩
  · intro h
    exact absurd h (by simp)
  · intro h
    have h2 := fitLoopAux_ok env (supercellOf env sm) sm.miller sm.targetThickness.1
      (sm.maxLayers - sm.layers).toNat sm.layers
      (env.surfaceF (supercellOf env sm) sm.miller sm.layers) s1 L1 hfit
    simp only [Except.ok.injEq] at h
    refine ⟨?_, ?_, ?_⟩
    · rw [← h, thicknessOf_centerZ]
      exact h2.1
    · exact h2.2.1
    · have h3 := h2.2.2
      show L1 ≤ max sm.layers sm.maxLayers
      omega

lemma slab_z_fitter_frame (env : SlabEnv) (sm : SlabMakerState) :
    (slab_z_fitter env sm).1.poscarFile = sm.poscarFile ∧
    (slab_z_fitter env sm).1.miller = sm.miller ∧
    (slab_z_fitter env sm).1.superX = sm.superX ∧
    (slab_z_fitter env sm).1.superY = sm.superY ∧
    (slab_z_fitter env sm).1.superZ = sm.superZ ∧
    (slab_z_fitter env sm).1.vacuum = sm.vacuum ∧
    (slab_z_fitter env sm).1.targetThickness = sm.targetThickness ∧
    (slab_z_fitter env sm).1.maxLayers = sm.maxLayers := by
  unfold slab_z_fitter
  rcases hfit : fitLoopAux env (supercellOf env sm) sm.miller sm.targetThickness.1
      (sm.maxLayers - sm.layers).toNat sm.layers
      (env.surfaceF (supercellOf env sm) sm.miller sm.layers) with e2 | ⟨s1, L1⟩ <;>
    simp [hfit]

end SlabMaker

/-- Claim C6: the thickness-fitting loop of `slab_z_fitter` is bounded: for
every environment and state it either returns a slab at least
`target_thickness[0]` thick — with the final layer count between the initial
one and `max(initial, max_layers)`, i.e. after at most
`max_layers - initial` increments — or raises the `RuntimeError` of line 45;
no other outcome exists. -/
theorem claim6_fitter_bounded (env : SlabEnv) (sm : SlabMakerState) :
    (∀ e, (SlabMaker.slab_z_fitter env sm).2 = .error e → e = maxLayersMsg) ∧
    (∀ s, (SlabMaker.slab_z_fitter env sm).2 = .ok s →
      sm.targetThickness.1 ≤ thicknessOf s ∧
      sm.layers ≤ (SlabMaker.slab_z_fitter env sm).1.layers ∧
      (SlabMaker.slab_z_fitter env sm).1.layers ≤ max sm.layers sm.maxLayers) :=
  ⟨SlabMaker.slab_z_fitter_err_props env sm, SlabMaker.slab_z_fitter_ok_props env sm⟩

/-- Environment used for the concrete instances: the external `surface` call
returns a two-atom slab of thickness equal to the layer count. -/
def envC : SlabEnv :=
  { readF := fun _ => 0
    repeatB := fun b _ _ _ => b
    surfaceF := fun _ _ L => { atoms := [⟨0, 0, 0⟩, ⟨0, 0, (L : ℚ)⟩] }
    repeatSlab := fun s _ _ => s }

/-- A freshly constructed `SlabMaker` (no slab yet), with
`target_thickness = (1.5, 2)` and one initial layer. -/
def smC : SlabMakerState :=
  { poscarFile := "POSCAR_Pd_slab", miller := (1, 1, 1), layers := 1
    superX := 1, superY := 1, superZ := 1, vacuum := 10
    targetThickness := (3 / 2, 2), maxLayers := 30, slab := none }

/-- The slab `slab_z_fitter envC smC` produces: two layers, centered with
vacuum 10. -/
def slabC : Slab := { atoms := [⟨0, 0, 10⟩, ⟨0, 0, 12⟩] }

instance {ε α : Type} [DecidableEq ε] [DecidableEq α] : DecidableEq (Except ε α)
  | .error e1, .error e2 =>
    if h : e1 = e2 then .isTrue (congrArg Except.error h)
    else .isFalse (fun hh => h (Except.error.inj hh))
  | .error _, .ok _ => .isFalse (fun hh => Except.noConfusion hh)
  | .ok _, .error _ => .isFalse (fun hh => Except.noConfusion hh)
  | .ok v1, .ok v2 =>
    if h : v1 = v2 then .isTrue (congrArg Except.ok h)
    else .isFalse (fun hh => h (Except.ok.inj hh))

unseal Rat.add Rat.sub Rat.mul Rat.inv in
/-- Claim C6, witness: the fitting loop on `smC` stops at thickness 2 with
layer count 2, within the bound. -/
theorem claim6_fitter_bounded_instance :
    smC.targetThickness.1 ≤ thicknessOf slabC ∧
    smC.layers ≤ (SlabMaker.slab_z_fitter envC smC).1.layers ∧
    (SlabMaker.slab_z_fitter envC smC).1.layers ≤ max smC.layers smC.maxLayers :=
  (claim6_fitter_bounded envC smC).2 slabC (by decide)

/-- Claim C9: every slab-consuming `SlabMaker` method (`trim_z`,
`adjust_xy_by_surface_atoms`, `save_poscar`, `view`, `repeat_xy`) raises
`ValueError` when called while `self.slab is None`, and in that case leaves
the instance state unchanged. -/
theorem claim9_requires_slab (env : SlabEnv) (c : ℚ) (n t mr nx ny : ℤ)
    (fn : String) (wres : Except String Unit) (sm : SlabMakerState)
    (h : sm.slab = none) :
    SlabMaker.trim_z c sm = (sm, .error noSlabMsg) ∧
    SlabMaker.adjust_xy_by_surface_atoms env n t mr sm = (sm, .error noSlabMsg) ∧
    SlabMaker.save_poscar wres fn sm = (sm, .error noSlabMsg) ∧
    SlabMaker.view sm = (sm, .error noSlabMsg) ∧
    SlabMaker.repeat_xy env nx ny sm = (sm, .error noSlabMsg) := by
  unfold SlabMaker.trim_z SlabMaker.adjust_xy_by_surface_atoms SlabMaker.save_poscar
    SlabMaker.view SlabMaker.repeat_xy
  rw [h]
  exact ⟨rfl, rfl, rfl, rfl, rfl⟩

/-- Claim C9, witness: the five methods on the slab-less state `smC`. -/
theorem claim9_requires_slab_instance :
    SlabMaker.trim_z 15 smC = (smC, .error noSlabMsg) ∧
    SlabMaker.adjust_xy_by_surface_atoms envC 9 16 6 smC = (smC, .error noSlabMsg) ∧
    SlabMaker.save_poscar (.ok ()) "POSCAR" smC = (smC, .error noSlabMsg) ∧
    SlabMaker.view smC = (smC, .error noSlabMsg) ∧
    SlabMaker.repeat_xy envC 2 3 smC = (smC, .error noSlabMsg) :=
  claim9_requires_slab envC 15 9 16 6 2 3 "POSCAR" (.ok ()) smC rfl

namespace SlabMaker

lemma slab_z_fitter_tt2_congr (env : SlabEnv) (sm : SlabMakerState) (b : ℚ) :
    (slab_z_fitter env { sm with targetThickness := (sm.targetThickness.1, b) }).2 =
      (slab_z_fitter env sm).2 ∧
    (slab_z_fitter env { sm with targetThickness := (sm.targetThickness.1, b) }).1.layers =
      (slab_z_fitter env sm).1.layers ∧
    (slab_z_fitter env { sm with targetThickness := (sm.targetThickness.1, b) }).1.slab =
      (slab_z_fitter env sm).1.slab := by
  rcases sm with ⟨p, mil, L, X, Y, Z, V, ⟨ta, tb⟩, M, sl⟩
  unfold slab_z_fitter supercellOf
  dsimp only
  rcases hfit : fitLoopAux env (env.repeatB (env.readF p) X Y Z) mil ta (M - L).toNat L
      (env.surfaceF (env.repeatB (env.readF p) X Y Z) mil L) with e | ⟨s1, L1⟩ <;>
    simp [hfit]

lemma adjust_frame (env : SlabEnv) (n t mr : ℤ) (sm : SlabMakerState) :
    (adjust_xy_by_surface_atoms env n t mr sm).1.poscarFile = sm.poscarFile ∧
    (adjust_xy_by_surface_atoms env n t mr sm).1.miller = sm.miller ∧
    (adjust_xy_by_surface_atoms env n t mr sm).1.superZ = sm.superZ ∧
    (adjust_xy_by_surface_atoms env n t mr sm).1.vacuum = sm.vacuum ∧
    (adjust_xy_by_surface_atoms env n t mr sm).1.targetThickness = sm.targetThickness ∧
    (adjust_xy_by_surface_atoms env n t mr sm).1.maxLayers = sm.maxLayers := by
  unfold adjust_xy_by_surface_atoms
  split
  · exact ⟨rfl, rfl, rfl, rfl, rfl, rfl⟩
  · split
    · exact ⟨rfl, rfl, rfl, rfl, rfl, rfl⟩
    · split
      · split
        · exact ⟨rfl, rfl, rfl, rfl, rfl, rfl⟩
        · rename_i s hneq hlt hcap
          have hf := slab_z_fitter_frame env
            { sm with superX := growNx n t mr sm, superY := growNy n t mr sm }
          exact ⟨hf.1, hf.2.1, hf.2.2.2.2.1, hf.2.2.2.2.2.1, hf.2.2.2.2.2.2.1,
            hf.2.2.2.2.2.2.2⟩
      · split
        · exact ⟨rfl, rfl, rfl, rfl, rfl, rfl⟩
        · exact ⟨rfl, rfl, rfl, rfl, rfl, rfl⟩

end SlabMaker

unseal Rat.add Rat.sub Rat.mul Rat.inv in
/-- Claim C7, counterexample: `slab_z_fitter` is not stateless — on the
concrete instance `smC` it updates the `layers` configuration field (from 1
to the fitted count), refuting "leave the instance's configuration fields
(layers, super_xyz, ...) unchanged". -/
theorem claim7_stateless_cex :
    (SlabMaker.slab_z_fitter envC smC).1.layers ≠ smC.layers := by decide

/-- Claim C7 (amended): `slab_z_fitter` and `adjust_xy_by_surface_atoms`
leave `miller`, `vacuum`, `target_thickness` and `max_layers` (and the
poscar path) unchanged; `slab_z_fitter` additionally preserves all three
`super_xyz` repeats, but updates `layers` (and the stored slab), and
`adjust_xy_by_surface_atoms` may update the x,y repeats (and, through
re-fitting, `layers`); the routines are therefore not fully stateless. -/
theorem claim7_frame_amended (env : SlabEnv) (n t mr : ℤ) (sm : SlabMakerState) :
    ((SlabMaker.slab_z_fitter env sm).1.poscarFile = sm.poscarFile ∧
     (SlabMaker.slab_z_fitter env sm).1.miller = sm.miller ∧
     (SlabMaker.slab_z_fitter env sm).1.superX = sm.superX ∧
     (SlabMaker.slab_z_fitter env sm).1.superY = sm.superY ∧
     (SlabMaker.slab_z_fitter env sm).1.superZ = sm.superZ ∧
     (SlabMaker.slab_z_fitter env sm).1.vacuum = sm.vacuum ∧
     (SlabMaker.slab_z_fitter env sm).1.targetThickness = sm.targetThickness ∧
     (SlabMaker.slab_z_fitter env sm).1.maxLayers = sm.maxLayers) ∧
    ((SlabMaker.adjust_xy_by_surface_atoms env n t mr sm).1.poscarFile = sm.poscarFile ∧
     (SlabMaker.adjust_xy_by_surface_atoms env n t mr sm).1.miller = sm.miller ∧
     (SlabMaker.adjust_xy_by_surface_atoms env n t mr sm).1.superZ = sm.superZ ∧
     (SlabMaker.adjust_xy_by_surface_atoms env n t mr sm).1.vacuum = sm.vacuum ∧
     (SlabMaker.adjust_xy_by_surface_atoms env n t mr sm).1.targetThickness =
       sm.targetThickness ∧
     (SlabMaker.adjust_xy_by_surface_atoms env n t mr sm).1.maxLayers = sm.maxLayers) :=
  ⟨SlabMaker.slab_z_fitter_frame env sm, SlabMaker.adjust_frame env n t mr sm⟩

/-- Claim C10: `slab_z_fitter` only enforces the lower endpoint of the
target-thickness range: every normal return has thickness at least
`target_thickness[0]`, and changing `target_thickness[1]` alone changes
neither the outcome nor the stored slab nor the final layer count. -/
theorem claim10_upper_bound_irrelevant (env : SlabEnv) (sm : SlabMakerState) (b : ℚ) :
    (∀ s, (SlabMaker.slab_z_fitter env sm).2 = .ok s →
      sm.targetThickness.1 ≤ thicknessOf s) ∧
    ((SlabMaker.slab_z_fitter env
        { sm with targetThickness := (sm.targetThickness.1, b) }).2 =
      (SlabMaker.slab_z_fitter env sm).2 ∧
     (SlabMaker.slab_z_fitter env
        { sm with targetThickness := (sm.targetThickness.1, b) }).1.layers =
      (SlabMaker.slab_z_fitter env sm).1.layers ∧
     (SlabMaker.slab_z_fitter env
        { sm with targetThickness := (sm.targetThickness.1, b) }).1.slab =
      (SlabMaker.slab_z_fitter env sm).1.slab) :=
  ⟨fun s h => (SlabMaker.slab_z_fitter_ok_props env sm s h).1,
    SlabMaker.slab_z_fitter_tt2_congr env sm b⟩

unseal Rat.add Rat.sub Rat.mul Rat.inv in
/-- Claim C10, witness: on `smC` the fitted slab meets the lower endpoint,
and replacing the unused upper endpoint by 99 gives the same outcome. -/
theorem claim10_upper_bound_irrelevant_instance :
    smC.targetThickness.1 ≤ thicknessOf slabC ∧
    (SlabMaker.slab_z_fitter envC
        { smC with targetThickness := (smC.targetThickness.1, 99) }).2 =
      (SlabMaker.slab_z_fitter envC smC).2 :=
  ⟨(claim10_upper_bound_irrelevant envC smC 99).1 slabC (by decide),
    (claim10_upper_bound_irrelevant envC smC 99).2.1⟩

/-- The slab stored on the instance after a successful `slab_z_fitter` run
on `smC`, reused by the `trim_z` and `adjust_xy` instances. -/
def smG : SlabMakerState := { smC with slab := some slabC, layers := 2 }

/-- Claim C8: `trim_z` removes exactly the atoms with `z_max - z > cutoff`
(an atom stays iff `z_max - z <= cutoff`), so an atom at `z_max` is always
kept and a nonnegative cutoff leaves a non-empty slab non-empty. -/
theorem claim8_trim_z (c : ℚ) (sm : SlabMakerState) (s : Slab)
    (hs : sm.slab = some s) (hne : s.atoms ≠ []) :
    ∀ s2, (SlabMaker.trim_z c sm).2 = .ok s2 →
      (∀ a : Atom, a ∈ s2.atoms ↔ a ∈ s.atoms ∧ qMax (zcoords s) - a.z ≤ c) ∧
      (0 ≤ c → s2.atoms ≠ []) := by
  intro s2 h
  unfold SlabMaker.trim_z at h
  rw [hs] at h
  simp only [Except.ok.injEq] at h
  constructor
  · intro a
    rw [← h]
    show a ∈ SlabMaker.trimKept c s ↔ _
    unfold SlabMaker.trimKept
    rw [List.mem_filter]
    simp [not_lt]
  · intro hc
    rw [← h]
    show (SlabMaker.trimKept c s : List Atom) ≠ []
    have hzne : zcoords s ≠ [] := by
      unfold zcoords
      simpa using hne
    have hzm : qMax (zcoords s) ∈ zcoords s := qMax_mem _ hzne
    rcases List.mem_map.mp hzm with ⟨a, ha, haz⟩
    intro hnil
    have hmem : a ∈ SlabMaker.trimKept c s := by
      unfold SlabMaker.trimKept
      rw [List.mem_filter]
      refine ⟨ha, ?_⟩
      have hle : ¬ (qMax (zcoords s) - a.z > c) := by
        rw [haz]
        simp only [sub_self, not_lt]
        exact hc
      simp [hle]
    rw [hnil] at hmem
    exact List.not_mem_nil a hmem

unseal Rat.add Rat.sub Rat.mul Rat.inv in
/-- Claim C8, witness: trimming `slabC` at cutoff 1 keeps exactly the atom at
`z_max = 12`, and the result is non-empty. -/
theorem claim8_trim_z_instance :
    ((Atom.mk 0 0 12) ∈ (Slab.mk [Atom.mk 0 0 12]).atoms ↔
      (Atom.mk 0 0 12) ∈ slabC.atoms ∧ qMax (zcoords slabC) - (Atom.mk 0 0 12).z ≤ 1) ∧
    (Slab.mk [Atom.mk 0 0 12]).atoms ≠ [] := by
  have h := claim8_trim_z 1 smG slabC rfl (by decide) (Slab.mk [Atom.mk 0 0 12])
    (by decide)
  exact ⟨h.1 (Atom.mk 0 0 12), h.2 (by decide)⟩

/-- Claim C5 (amended): for `0 < n_surface < target` the grow branch sets
each of the x,y supercell repeats to the old repeat times the scale factor,
capped at `max_xy_repeat`, where the scale factor is exactly the ceiling of
the square root of `target/n_surface` (the least natural `k` with
`target/n_surface <= k^2`); for `n_surface > target` the shrink branch keeps
exactly the atoms inside the centered bounding box scaled by
`sqrt(target/n_surface)` — membership expressed by the equivalent squared
inequality — UNLESS the scaled box contains no atom at all, in which case
the guard at src/slabmaker.py lines 170-172 returns the slab unchanged,
keeping even the atoms outside the box. -/
theorem claim5_adjust_scaling (env : SlabEnv) (n t mr : ℤ) (sm : SlabMakerState)
    (s : Slab) (hs : sm.slab = some s) :
    (0 < n → n < t →
      (SlabMaker.adjust_xy_by_surface_atoms env n t mr sm).1.superX =
        min (sm.superX * (ceilSqrtRat ((t : ℚ) / (n : ℚ)) : ℤ)) mr ∧
      (SlabMaker.adjust_xy_by_surface_atoms env n t mr sm).1.superY =
        min (sm.superY * (ceilSqrtRat ((t : ℚ) / (n : ℚ)) : ℤ)) mr ∧
      (t : ℚ) / (n : ℚ) ≤ (ceilSqrtRat ((t : ℚ) / (n : ℚ)) : ℚ) ^ 2 ∧
      (∀ k : ℕ, (t : ℚ) / (n : ℚ) ≤ (k : ℚ) ^ 2 →
        ceilSqrtRat ((t : ℚ) / (n : ℚ)) ≤ k)) ∧
    (t < n → SlabMaker.shrinkAtoms t n s ≠ [] →
      (SlabMaker.adjust_xy_by_surface_atoms env n t mr sm).1.slab =
        some { atoms := SlabMaker.shrinkAtoms t n s } ∧
      (∀ a : Atom, SlabMaker.shrinkKeep t n s a = true ↔
        ((2 * a.x - (qMax (s.atoms.map Atom.x) + qMin (s.atoms.map Atom.x))) ^ 2 ≤
            (qMax (s.atoms.map Atom.x) - qMin (s.atoms.map Atom.x)) ^ 2 *
              ((t : ℚ) / (n : ℚ)) ∧
          (2 * a.y - (qMax (s.atoms.map Atom.y) + qMin (s.atoms.map Atom.y))) ^ 2 ≤
            (qMax (s.atoms.map Atom.y) - qMin (s.atoms.map Atom.y)) ^ 2 *
              ((t : ℚ) / (n : ℚ))))) ∧
    (t < n → SlabMaker.shrinkAtoms t n s = [] →
      (SlabMaker.adjust_xy_by_surface_atoms env n t mr sm).1.slab = some s) := by
  refine ⟨?_, ?_, ?_⟩
  · intro h1 h2
    have hsc : SlabMaker.growScale n t = (ceilSqrtRat ((t : ℚ) / (n : ℚ)) : ℤ) := by
      unfold SlabMaker.growScale
      rw [if_neg (by omega)]
    have hmain :
        (SlabMaker.adjust_xy_by_surface_atoms env n t mr sm).1.superX =
          SlabMaker.growNx n t mr sm ∧
        (SlabMaker.adjust_xy_by_surface_atoms env n t mr sm).1.superY =
          SlabMaker.growNy n t mr sm := by
      unfold SlabMaker.adjust_xy_by_surface_atoms
      split
      · rename_i hnone
        rw [hs] at hnone
        exact absurd hnone (by simp)
      · rename_i s2 hsome
        rw [hs] at hsome
        injection hsome with hss
        subst hss
        rw [if_neg (by omega : ¬ n = t), if_pos h2]
        by_cases h3 : SlabMaker.growNx n t mr sm = sm.superX ∧
            SlabMaker.growNy n t mr sm = sm.superY
        · rw [if_pos h3]
          exact ⟨h3.1.symm, h3.2.symm⟩
        · rw [if_neg h3]
          have hf := SlabMaker.slab_z_fitter_frame env
            { sm with superX := SlabMaker.growNx n t mr sm
                      superY := SlabMaker.growNy n t mr sm }
          exact ⟨hf.2.2.1, hf.2.2.2.1⟩
    refine ⟨?_, ?_, ?_, ?_⟩
    · rw [hmain.1]
      unfold SlabMaker.growNx
      rw [hsc]
    · rw [hmain.2]
      unfold SlabMaker.growNy
      rw [hsc]
    · exact ceilSqrtRat_ge _
    · exact fun k hk => ceilSqrtRat_min _ k hk
  · intro h2 h3
    constructor
    · unfold SlabMaker.adjust_xy_by_surface_atoms
      split
      · rename_i hnone
        rw [hs] at hnone
        exact absurd hnone (by simp)
      · rename_i s2 hsome
        rw [hs] at hsome
        injection hsome with hss
        subst hss
        rw [if_neg (by omega : ¬ n = t), if_neg (by omega : ¬ n < t),
          if_neg (by simpa [List.length_eq_zero] using h3)]
    · intro a
      unfold SlabMaker.shrinkKeep
      simp only [Bool.and_eq_true, decide_eq_true_eq]
  · intro h2 h3
    unfold SlabMaker.adjust_xy_by_surface_atoms
    split
    · rename_i hnone
      rw [hs] at hnone
      exact absurd hnone (by simp)
    · rename_i s2 hsome
      rw [hs] at hsome
      injection hsome with hss
      subst hss
      rw [if_neg (by omega : ¬ n = t), if_neg (by omega : ¬ n < t),
        if_pos (by rw [h3]; rfl)]
      exact hs

/-- A slab whose atoms sit exactly at the corners of its xy bounding box:
with `target = 16` and `n_surface = 64` the scaled box `[2.5, 7.5] x
[2.5, 7.5]` contains none of them, so the shrink guard keeps everything. -/
def slabH : Slab := { atoms := [Atom.mk 0 0 0, Atom.mk 10 10 1] }

/-- A `SlabMaker` holding `slabH`. -/
def smH : SlabMakerState := { smC with slab := some slabH }

unseal Rat.add Rat.sub Rat.mul Rat.inv in
/-- Claim C5, counterexample: with 64 surface atoms, target 16 and the slab
`slabH`, the shrunken centered box contains no atom, so the `kept == 0`
guard (src/slabmaker.py lines 170-172) returns the slab unchanged — the
result still contains the atom at the origin even though it lies outside
the shrunken box, refuting "keeps only atoms inside the shrunken centered
box". -/
theorem claim5_shrink_guard_cex :
    (SlabMaker.adjust_xy_by_surface_atoms envC 64 16 6 smH).1.slab = some slabH ∧
    (Atom.mk 0 0 0) ∈ slabH.atoms ∧
    SlabMaker.shrinkKeep 16 64 slabH (Atom.mk 0 0 0) = false := by decide

unseal Rat.add Rat.sub Rat.mul Rat.inv in
/-- Claim C5, witness: with 3 surface atoms and target 16 the grow branch
sets the x repeat to `min(1 * ceil(sqrt(16/3)), 6) = 3`, the square of the
scale factor dominates `16/3`; with 20 surface atoms and target 16 the
shrink branch stores exactly the atoms inside the scaled box; and with 64
surface atoms on `slabH` the empty scaled box triggers the guard, leaving
the slab unchanged. -/
theorem claim5_adjust_scaling_instance :
    (SlabMaker.adjust_xy_by_surface_atoms envC 3 16 6 smG).1.superX =
      min (smG.superX * (ceilSqrtRat ((16 : ℚ) / (3 : ℚ)) : ℤ)) 6 ∧
    (16 : ℚ) / (3 : ℚ) ≤ (ceilSqrtRat ((16 : ℚ) / (3 : ℚ)) : ℚ) ^ 2 ∧
    (SlabMaker.adjust_xy_by_surface_atoms envC 20 16 6 smG).1.slab =
      some { atoms := SlabMaker.shrinkAtoms 16 20 slabC } ∧
    (SlabMaker.adjust_xy_by_surface_atoms envC 64 16 6 smH).1.slab = some slabH := by
  have h1 := (claim5_adjust_scaling envC 3 16 6 smG slabC rfl).1 (by decide) (by decide)
  have h2 := (claim5_adjust_scaling envC 20 16 6 smG slabC rfl).2.1 (by decide) (by decide)
  have h3 := (claim5_adjust_scaling envC 64 16 6 smH slabH rfl).2.2 (by decide) (by decide)
  exact ⟨h1.1, h1.2.2.1, h2.1, h3⟩
